import Mathlib

/-!
Shallow embedding of `src/offspect/input/tms/cmep/xdf.py` from
`translationalneurosurgery/offline-inspect`: the functions
`prepare_annotations` and `cut_traces`, together with models of the
helpers they import from `offspect/protocols/xdf.py` (a repository file
that is not part of the excerpt; those helpers are modelled from the
specification and marked as such in their doc comments).

Modelling conventions:
* sample values and timestamps are exact rationals (`ℚ`); Python floats
  are not modelled bit-for-bit, and NumPy's NaN sentinel is modelled as
  `Option.none`;
* a loaded XDF file is a finite association list from stream names to
  streams; Python's `"name" in streams` is `containsName` and
  `streams["name"]` is `get?` (a missing key raises `KeyError`, modelled
  as `Except.error`);
* NumPy 2-D arrays are lists of rows; a basic slice of an array is a
  view, so the in-place subtraction `trace -= bl` in `cut_traces` writes
  back into the stream's sample matrix — the model threads the matrix
  state explicitly and returns its final value next to the traces;
* `n : ℕ` subtraction is truncated; slice bounds in `cut_traces` are
  modelled for the in-bounds regime (`onset ≥ pre`).  Python's
  negative-index wrap-around for `onset < pre` is out of scope and every
  theorem below that touches windows assumes the window fits.
-/

namespace Offspect

/-- A 3-D coordinate; `none` models the all-NaN "missing" sentinel. -/
abbrev Coordinate := Option (ℚ × ℚ × ℚ)

/-- Model of `liesl.files.xdf.load.XDFStream`: one named stream of a
loaded XDF file.  Continuous streams carry a sample matrix
(`time_series`, samples × channels) and per-sample `time_stamps`;
marker streams carry decoded marker payloads with their timestamps
(`markers`); a localite tracking stream additionally carries
coordinate / intensity samples (`loc_coords`, `loc_didt`, `loc_mso`),
each paired with its timestamp. -/
structure XDFStream where
  name : String
  hostname : String := ""
  nominal_srate : ℚ := 0
  channel_labels : List String := []
  time_series : List (List ℚ) := []
  time_stamps : List ℚ := []
  markers : List (String × ℚ) := []
  loc_coords : List (ℚ × (ℚ × ℚ × ℚ)) := []
  loc_didt : List (ℚ × ℚ) := []
  loc_mso : List (ℚ × ℚ) := []
  deriving Repr, DecidableEq

/-- A loaded XDF file: stream name ↦ stream (model of `liesl.api.XDFFile`). -/
abbrev Streams := List (String × XDFStream)

/-- `streams["name"]`: first stream recorded under this name, if any. -/
def Streams.get? : Streams → String → Option XDFStream
  | [], _ => none
  | (n, s) :: rest, key => if n = key then some s else Streams.get? rest key

/-- `"name" in streams`. -/
def Streams.containsName (streams : Streams) (key : String) : Bool :=
  (streams.get? key).isSome

/-- Modelled from the spec: `yield_timestamps` (Timestamp Extractor,
`offspect/protocols/xdf.py`, not under `src/`): the ordered timestamps
of every marker sample whose decoded payload equals the event-name
filter. -/
def yield_timestamps (s : XDFStream) (event_name : String) : List ℚ :=
  (s.markers.filter (fun m => m.1 = event_name)).map (fun m => m.2)

/-- Modelled from the spec: `find_closest` (`offspect/protocols/xdf.py`,
not under `src/`): the element of `xs` with minimal absolute difference
to `t`, ties resolved to the earliest index.  The empty case never
arises in `prepare_annotations` (guarded by the NumPy `ptp` call). -/
def find_closest (t : ℚ) : List ℚ → ℚ
  | [] => t
  | x :: rest => rest.foldl (fun best y => if |y - t| < |best - t| then y else best) x

/-- Index of the element of `xs` closest to `t` (absolute difference,
ties to the earliest index); `0` for an empty list. -/
def closestIdx (t : ℚ) (xs : List ℚ) : ℕ :=
  match xs.enum with
  | [] => 0
  | p :: rest =>
      (rest.foldl (fun best q => if |q.2 - t| < |best.2 - t| then q else best) p).1

/-- Modelled from the spec: `find_closest_samples`
(`offspect/protocols/xdf.py`, not under `src/`): for each timestamp the
index of the data stream's closest sample timestamp (nearest match,
ties to the earliest index). -/
def find_closest_samples (datastream : XDFStream) (ts : List ℚ) : List ℕ :=
  ts.map (fun t => closestIdx t datastream.time_stamps)

/-- The tracking sample (timestamp, payload) closest to `t`. -/
def nearestSample {α : Type} (t : ℚ) : List (ℚ × α) → Option α
  | [] => none
  | p :: rest =>
      some ((rest.foldl (fun best q => if |q.1 - t| < |best.1 - t| then q else best) p).2)

/-- Modelled from the spec: `yield_loc_coords`
(`offspect/protocols/xdf.py`, not under `src/`): for each reference
timestamp, the coordinate of the nearest tracking sample. -/
def yield_loc_coords (loc : XDFStream) (ts : List ℚ) : List Coordinate :=
  ts.map (fun t => nearestSample t loc.loc_coords)

/-- Modelled from the spec: `yield_loc_didt` (current-derivative
intensity of the nearest tracking sample; not under `src/`). -/
def yield_loc_didt (loc : XDFStream) (ts : List ℚ) : List (Option ℚ) :=
  ts.map (fun t => nearestSample t loc.loc_didt)

/-- Modelled from the spec: `yield_loc_mso` (device intensity in %MSO of
the nearest tracking sample; not under `src/`). -/
def yield_loc_mso (loc : XDFStream) (ts : List ℚ) : List (Option ℚ) :=
  ts.map (fun t => nearestSample t loc.loc_mso)

/-- Modelled from the spec: `list_nan` (`offspect/protocols/xdf.py`, not
under `src/`): `n` copies of the NaN sentinel. -/
def list_nan (n : ℕ) : List (Option ℚ) :=
  List.replicate n none

/-- Modelled from the spec: `list_nan_coords`: `n` copies of the all-NaN
coordinate sentinel. -/
def list_nan_coords (n : ℕ) : List Coordinate :=
  List.replicate n none

/-- Modelled from the spec: `correct_tkeo` (`offspect/protocols/xdf.py`,
not under `src/`): artifact refinement locates, near each current
best-estimate timestamp, the true onset of the stimulation artifact in
the raw waveform `bvr` and replaces the timestamp with that refined
value.  The detection procedure itself (a nonlinear energy operator) is
abstract here and supplied as the parameter `detect`; what the model
fixes is its shape: one refined timestamp per input timestamp. -/
def correct_tkeo (detect : XDFStream → ℚ → ℚ) (bvr : XDFStream) (ts : List ℚ) : List ℚ :=
  ts.map (detect bvr)

/-- Modelled from the spec: `pick_stream_with_channel`
(`offspect/protocols/xdf.py`, not under `src/`): the data stream whose
channel labels contain the requested channel; a channel present in no
stream is a fatal precondition violation. -/
def pick_stream_with_channel (channel : String) (streams : Streams) :
    Except String XDFStream :=
  match streams.find? (fun p => p.2.channel_labels.contains channel) with
  | some p => Except.ok p.2
  | none => Except.error ("no stream with channel " ++ channel)

/-- NumPy `np.ptp` (max − min); `none` for the empty array, on which the
real `np.ptp` raises `ValueError: zero-size array to reduction
operation`. -/
def ptp : List ℚ → Option ℚ
  | [] => none
  | x :: rest => some (rest.foldl max x - rest.foldl min x)

/-- Truncation of a rational toward zero: Python's `int(...)`. -/
def pyTrunc (q : ℚ) : ℤ :=
  Int.tdiv q.num q.den

/-- One per-trial attribute record (`tattr` in `prepare_annotations`,
lines 181–192).  `time_since_last_pulse_in_s = none` models the `inf`
of the first trial; intensity / coordinate `none` models NaN. -/
structure TraceAttr where
  id : ℕ := 0
  event_name : String := ""
  event_sample : ℕ := 0
  event_time : ℚ := 0
  xyz_coords : Coordinate := none
  time_since_last_pulse_in_s : Option ℚ := none
  stimulation_intensity_mso : Option ℚ := none
  stimulation_intensity_didt : Option ℚ := none
  deriving Repr, DecidableEq

/-- Model of the record the `AnnotationFactory` accumulates (the
factory itself lives in `offspect/cache/attrs.py`, outside `src/`):
global attributes plus the ordered per-trial records.  File-system
attributes of the source (`origin`, `filedate`, `subject`) are omitted:
they come from one-shot I/O and no claim touches them. -/
structure Annotations where
  samplingrate : ℚ := 0
  samples_pre_event : ℕ := 0
  samples_post_event : ℕ := 0
  channel_of_interest : String := ""
  channel_labels : List String := []
  traces : List TraceAttr := []
  deriving Repr, DecidableEq

/-- Lines 121–133 of `xdf.py`: selection of the auxiliary hardware
marker stream.  `rda_stamps` starts as `None`; each of the two
candidate names, when present with hostname `SEPHYS-CTRL`, overwrites
it with that stream's `'S  2'` timestamps — the `Markers2` lookup runs
second and unconditionally overwrites the first. -/
def select_rda_stamps (streams : Streams) : Option (List ℚ) :=
  let rda0 : Option (List ℚ) := none
  let rda1 :=
    match streams.get? "BrainVision RDA Markers" with
    | some s => if s.hostname = "SEPHYS-CTRL"
                then some (yield_timestamps s "S  2") else rda0
    | none => rda0
  match streams.get? "BrainVision RDA Markers2" with
  | some s => if s.hostname = "SEPHYS-CTRL"
              then some (yield_timestamps s "S  2") else rda1
  | none => rda1

/-- Lines 137–147 of `xdf.py`: density / count-sufficiency correction,
run when `rda_stamps is not None`.  `np.ptp` of the empty list raises,
modelled as `Except.error`; a span below 30 s triggers the constant
45 ms shift; otherwise, with at least as many auxiliary as primary
timestamps, each primary timestamp snaps to the closest auxiliary one;
otherwise the count mismatch is only reported and the timestamps pass
through unchanged. -/
def rda_correction (rda_stamps time_stamps : List ℚ) : Except String (List ℚ) :=
  match ptp rda_stamps with
  | none => Except.error "ValueError: zero-size array to reduction operation"
  | some span =>
      if span < 30 then
        Except.ok (time_stamps.map (fun t => t + 0.045))
      else if time_stamps.length ≤ rda_stamps.length then
        Except.ok (time_stamps.map (fun t => find_closest t rda_stamps))
      else
        Except.ok time_stamps

/-- Lines 149–159 of `xdf.py`: artifact refinement.  `BrainVision RDA`
is used when present with hostname `SEPHYS-CTRL`; in every other case
the `else` branch indexes `streams["BrainVision RDA2"]` directly —
without a hostname check, raising `KeyError` when it is absent — and
applies `correct_tkeo` to whichever stream was obtained. -/
def tkeo_refinement (detect : XDFStream → ℚ → ℚ) (streams : Streams)
    (time_stamps : List ℚ) : Except String (List ℚ) :=
  match streams.get? "BrainVision RDA" with
  | some bvr =>
      if bvr.hostname = "SEPHYS-CTRL" then
        Except.ok (correct_tkeo detect bvr time_stamps)
      else
        match streams.get? "BrainVision RDA2" with
        | some bvr2 => Except.ok (correct_tkeo detect bvr2 time_stamps)
        | none => Except.error "KeyError: BrainVision RDA2"
  | none =>
      match streams.get? "BrainVision RDA2" with
      | some bvr2 => Except.ok (correct_tkeo detect bvr2 time_stamps)
      | none => Except.error "KeyError: BrainVision RDA2"

/-- Lines 181–192 of `xdf.py`: the per-trial records, one per event
sample, with `id = idx` from `enumerate`. -/
def build_trace_attrs (ev_name : String) (event_samples : List ℕ)
    (event_times : List ℚ) (tsl : List (Option ℚ)) (coords : List Coordinate)
    (didt mso : List (Option ℚ)) : List TraceAttr :=
  (List.range event_samples.length).map (fun idx =>
    { id := idx
      event_name := ev_name
      event_sample := event_samples.getD idx 0
      event_time := event_times.getD idx 0
      xyz_coords := coords.getD idx none
      time_since_last_pulse_in_s := tsl.getD idx none
      stimulation_intensity_mso := mso.getD idx none
      stimulation_intensity_didt := didt.getD idx none })

/-- Embedding of `prepare_annotations` (`xdf.py`, lines 53–193).

The `detect` parameter abstracts the artifact-onset detector used by
`correct_tkeo` (see there).  Deviations from the source, all harmless
to the claims: the `comments` list (lines 106–118) is computed by the
source but never used afterwards and is omitted; the file-system
attributes are omitted (see `Annotations`); `samples_pre_event` is
stored as `ℕ` (callers pass non-negative window sizes). -/
def prepare_annotations (detect : XDFStream → ℚ → ℚ) (streams : Streams)
    (channel : String) (pre_in_ms post_in_ms : ℚ)
    (event_name : String := "coil_0_didt")
    (event_stream : String := "localite_marker") : Except String Annotations :=
  match pick_stream_with_channel channel streams with
  | Except.error e => Except.error e
  | Except.ok datastream =>
  match streams.get? event_stream with
  | none => Except.error ("KeyError: " ++ event_stream)
  | some es =>
  let time_stamps := yield_timestamps es event_name
  let event_count := time_stamps.length
  let cdm : Except String (List Coordinate × List (Option ℚ) × List (Option ℚ)) :=
    if streams.containsName "localite_flow" ∨ streams.containsName "localite_marker" then
      match streams.get? "localite_marker" with
      | some loc =>
          Except.ok (yield_loc_coords loc time_stamps,
                     yield_loc_didt loc time_stamps,
                     yield_loc_mso loc time_stamps)
      | none => Except.error "KeyError: localite_marker"
    else
      Except.ok (list_nan_coords event_count, list_nan event_count,
                 list_nan event_count)
  match cdm with
  | Except.error e => Except.error e
  | Except.ok (coords, didt, mso) =>
  let corrected : Except String (List ℚ) :=
    match select_rda_stamps streams with
    | none => Except.ok time_stamps
    | some rda_stamps =>
        match rda_correction rda_stamps time_stamps with
        | Except.error e => Except.error e
        | Except.ok ts1 => tkeo_refinement detect streams ts1
  match corrected with
  | Except.error e => Except.error e
  | Except.ok time_stamps =>
  let fs := datastream.nominal_srate
  let event_samples := find_closest_samples datastream time_stamps
  let t0 := datastream.time_stamps.headD 0
  let event_times := event_samples.map (fun i => datastream.time_stamps.getD i 0 - t0)
  let tsl : List (Option ℚ) :=
    none :: List.zipWith (fun a b => some (a - b)) (event_times.drop 1) event_times
  Except.ok
    { samplingrate := fs
      samples_pre_event := (pyTrunc (pre_in_ms * fs / 1000)).toNat
      samples_post_event := (pyTrunc (post_in_ms * fs / 1000)).toNat
      channel_of_interest := channel
      channel_labels := [channel]
      traces := build_trace_attrs (es.name ++ "-" ++ event_name) event_samples
                  event_times tsl coords didt mso }

/-- Sample matrix entry at row `r`, column `c` (`0` outside bounds). -/
def getEntry (m : List (List ℚ)) (r c : ℕ) : ℚ :=
  (m.getD r []).getD c 0

/-- Column `c` of the sample matrix. -/
def colOf (m : List (List ℚ)) (c : ℕ) : List ℚ :=
  m.map (fun row => row.getD c 0)

/-- Python slice `m[lo:hi, c]` for `lo ≥ 0` (both bounds clamped to the
number of rows, as in Python). -/
def sliceCol (m : List (List ℚ)) (c lo hi : ℕ) : List ℚ :=
  ((colOf m c).take hi).drop lo

/-- NumPy `.mean()`.  The empty-array case is NaN (plus a warning) in
NumPy and `0` here; theorems that involve the baseline assume
`1 ≤ pre` so that the case never arises. -/
def listMean (xs : List ℚ) : ℚ :=
  xs.sum / xs.length

/-- Write `v` at row `r`, column `c` of the matrix (no-op out of
bounds). -/
def setEntry (m : List (List ℚ)) (r c : ℕ) (v : ℚ) : List (List ℚ) :=
  match m.get? r with
  | some row => m.set r (row.set c v)
  | none => m

/-- Write the values `vs` into column `c` starting at row `lo`: the
write-back performed by the in-place `trace -= bl` on the NumPy view. -/
def writeCol (c : ℕ) : List (List ℚ) → ℕ → List ℚ → List (List ℚ)
  | m, _, [] => m
  | m, lo, v :: vs => writeCol c (setEntry m lo c v) (lo + 1) vs

/-- The trial loop of `cut_traces` (lines 219–224), threading the
matrix state: for each onset slice the window
`[onset − pre, onset + post)` of the channel column from the *current*
matrix, compute the baseline mean over its first `pre` entries,
subtract it, emit the corrected window as the trial's trace, and —
because the NumPy slice is a view — write it back into the matrix. -/
def cutRun (cix pre post : ℕ) : List (List ℚ) → List ℕ →
    List (List ℚ) × List (List ℚ)
  | m, [] => (m, [])
  | m, onset :: rest =>
      let trace := sliceCol m cix (onset - pre) (onset + post)
      let bl := listMean (trace.take pre)
      let trace2 := trace.map (fun v => v - bl)
      let m2 := writeCol cix m (onset - pre) trace2
      let r := cutRun cix pre post m2 rest
      (r.1, trace2 :: r.2)

/-- Embedding of `cut_traces` (`xdf.py`, lines 196–225).  The source
returns only the traces and mutates `datastream.time_series` in place
through the NumPy view; the model returns the traces together with the
final state of that matrix (`.1` traces, `.2` matrix). -/
def cut_traces (streams : Streams) (anno : Annotations) :
    Except String (List (List ℚ) × List (List ℚ)) :=
  match pick_stream_with_channel anno.channel_of_interest streams with
  | Except.error e => Except.error e
  | Except.ok datastream =>
  match datastream.channel_labels.findIdx? (fun l => l == anno.channel_of_interest) with
  | none => Except.error "ValueError: channel is not in list"
  | some cix =>
  let pre := anno.samples_pre_event
  let post := anno.samples_post_event
  let r := cutRun cix pre post datastream.time_series
             (anno.traces.map (fun a => a.event_sample))
  Except.ok (r.2, r.1)

/-! Helper lemmas about the matrix primitives. -/

lemma length_setEntry (m : List (List ℚ)) (r c : ℕ) (v : ℚ) :
    (setEntry m r c v).length = m.length := by
  unfold setEntry
  cases m.get? r <;> simp

lemma getEntry_setEntry_ne (m : List (List ℚ)) (r c : ℕ) (v : ℚ) (r' c' : ℕ)
    (h : c' ≠ c ∨ r' ≠ r) :
    getEntry (setEntry m r c v) r' c' = getEntry m r' c' := by
  unfold setEntry getEntry
  cases hm : m.get? r with
  | none => rfl
  | some row =>
      rcases eq_or_ne r' r with rfl | hr
      · rcases h with h | h
        · have hlt : r' < m.length := by
            rw [List.get?_eq_getElem?] at hm
            exact (List.getElem?_eq_some_iff.mp hm).1
          rw [List.get?_eq_getElem?] at hm
          simp only [List.getD_eq_getElem?_getD, List.getElem?_set_self hlt, hm]
          simp [List.getElem?_set_ne (Ne.symm h)]
        · exact absurd rfl h
      · simp only [List.getD_eq_getElem?_getD, List.getElem?_set_ne (Ne.symm hr)]

lemma length_writeCol (c : ℕ) (vs : List ℚ) :
    ∀ (m : List (List ℚ)) (lo : ℕ), (writeCol c m lo vs).length = m.length := by
  induction vs with
  | nil => intro m lo; rfl
  | cons v vs ih =>
      intro m lo
      show (writeCol c (setEntry m lo c v) (lo + 1) vs).length = m.length
      rw [ih, length_setEntry]

lemma getEntry_writeCol_frame (c : ℕ) (vs : List ℚ) :
    ∀ (m : List (List ℚ)) (lo r c' : ℕ),
      (c' ≠ c ∨ r < lo ∨ lo + vs.length ≤ r) →
      getEntry (writeCol c m lo vs) r c' = getEntry m r c' := by
  induction vs with
  | nil => intro m lo r c' _; rfl
  | cons v vs ih =>
      intro m lo r c' h
      show getEntry (writeCol c (setEntry m lo c v) (lo + 1) vs) r c' = _
      rw [ih (setEntry m lo c v) (lo + 1) r c' (by
        rcases h with h | h | h
        · exact Or.inl h
        · exact Or.inr (Or.inl (by omega))
        · exact Or.inr (Or.inr (by simp at h ⊢; omega)))]
      exact getEntry_setEntry_ne m lo c v r c' (by
        rcases h with h | h | h
        · exact Or.inl h
        · exact Or.inr (by omega)
        · exact Or.inr (by simp at h; omega))

lemma length_colOf (m : List (List ℚ)) (c : ℕ) : (colOf m c).length = m.length :=
  List.length_map m _

lemma getElem?_colOf (m : List (List ℚ)) (c r : ℕ) :
    (colOf m c)[r]? = (m[r]?).map (fun row => row.getD c 0) :=
  List.getElem?_map _ m r

lemma getElem?_colOf_of_lt (m : List (List ℚ)) (c r : ℕ) (h : r < m.length) :
    (colOf m c)[r]? = some (getEntry m r c) := by
  rw [getElem?_colOf, List.getElem?_eq_getElem h]
  simp [getEntry, List.getD_eq_getElem?_getD, List.getElem?_eq_getElem h]

lemma length_sliceCol (m : List (List ℚ)) (c lo hi : ℕ) :
    (sliceCol m c lo hi).length = min hi m.length - lo := by
  simp [sliceCol, length_colOf]

lemma add_length_sliceCol_le (m : List (List ℚ)) (c lo hi : ℕ) (h : lo ≤ hi) :
    lo + (sliceCol m c lo hi).length ≤ hi := by
  rw [length_sliceCol]; omega

lemma getElem?_sliceCol (m : List (List ℚ)) (c lo hi k : ℕ) (hk : lo + k < hi) :
    (sliceCol m c lo hi)[k]? = (colOf m c)[lo + k]? := by
  unfold sliceCol
  rw [List.getElem?_drop, List.getElem?_take_of_lt hk]

lemma sliceCol_congr (m m0 : List (List ℚ)) (c lo hi : ℕ)
    (hlen : m.length = m0.length)
    (hag : ∀ r, lo ≤ r → r < hi → getEntry m r c = getEntry m0 r c) :
    sliceCol m c lo hi = sliceCol m0 c lo hi := by
  apply List.ext_getElem?
  intro k
  by_cases hk : lo + k < hi
  · rw [getElem?_sliceCol m c lo hi k hk, getElem?_sliceCol m0 c lo hi k hk]
    by_cases hr : lo + k < m.length
    · rw [getElem?_colOf_of_lt m c _ hr, getElem?_colOf_of_lt m0 c _ (hlen ▸ hr)]
      exact congrArg some (hag (lo + k) (by omega) hk)
    · rw [List.getElem?_eq_none (by rw [length_colOf]; omega),
          List.getElem?_eq_none (by rw [length_colOf]; omega)]
  · rw [List.getElem?_eq_none (by rw [length_sliceCol]; omega),
        List.getElem?_eq_none (by rw [length_sliceCol]; omega)]

lemma take_sliceCol (m : List (List ℚ)) (c lo hi k : ℕ) :
    (sliceCol m c lo hi).take k = sliceCol m c lo (min (lo + k) hi) := by
  unfold sliceCol
  rw [List.take_drop, List.take_take]

lemma cutRun_matrix_length (cix pre post : ℕ) (onsets : List ℕ) :
    ∀ m : List (List ℚ), (cutRun cix pre post m onsets).1.length = m.length := by
  induction onsets with
  | nil => intro m; rfl
  | cons onset rest ih =>
      intro m
      show (cutRun cix pre post (writeCol cix m (onset - pre) _) rest).1.length = _
      rw [ih, length_writeCol]

lemma cutRun_frame (cix pre post : ℕ) (onsets : List ℕ) :
    ∀ (m : List (List ℚ)) (r c : ℕ),
      (c ≠ cix ∨ ∀ o ∈ onsets, r < o - pre ∨ o + post ≤ r) →
      getEntry (cutRun cix pre post m onsets).1 r c = getEntry m r c := by
  induction onsets with
  | nil => intro m r c _; rfl
  | cons onset rest ih =>
      intro m r c h
      show getEntry (cutRun cix pre post (writeCol cix m (onset - pre)
        ((sliceCol m cix (onset - pre) (onset + post)).map
          (fun v => v - listMean ((sliceCol m cix (onset - pre) (onset + post)).take pre)))) rest).1 r c = _
      rw [ih _ r c (by
        rcases h with h | h
        · exact Or.inl h
        · exact Or.inr (fun o ho => h o (List.mem_cons_of_mem onset ho)))]
      apply getEntry_writeCol_frame
      rcases h with h | h
      · exact Or.inl h
      · rcases h onset (List.mem_cons_self onset rest) with h1 | h1
        · exact Or.inr (Or.inl h1)
        · refine Or.inr (Or.inr ?_)
          have hle : onset - pre ≤ onset + post := by omega
          have := add_length_sliceCol_le m cix (onset - pre) (onset + post) hle
          rw [List.length_map]
          omega

lemma cutRun_trace_at (cix pre post : ℕ) (m0 : List (List ℚ)) (onsets : List ℕ) :
    ∀ (m : List (List ℚ)) (i : ℕ), i < onsets.length →
      m.length = m0.length →
      (∀ r, onsets.getD i 0 - pre ≤ r → r < onsets.getD i 0 + post →
        getEntry m r cix = getEntry m0 r cix) →
      (∀ k, k < i → onsets.getD k 0 + post ≤ onsets.getD i 0 - pre ∨
          onsets.getD i 0 + post ≤ onsets.getD k 0 - pre) →
      (cutRun cix pre post m onsets).2.getD i [] =
        (sliceCol m0 cix (onsets.getD i 0 - pre) (onsets.getD i 0 + post)).map
          (fun v => v - listMean ((sliceCol m0 cix (onsets.getD i 0 - pre)
              (onsets.getD i 0 + post)).take pre)) := by
  induction onsets with
  | nil =>
      intro m i hi _ _ _
      simp at hi
  | cons onset rest ih =>
      intro m i hi hlen hag hdisj
      show ((let trace := sliceCol m cix (onset - pre) (onset + post)
             let bl := listMean (trace.take pre)
             let trace2 := trace.map (fun v => v - bl)
             let m2 := writeCol cix m (onset - pre) trace2
             let r := cutRun cix pre post m2 rest
             (r.1, trace2 :: r.2)).2).getD i [] = _
      cases i with
      | zero =>
          simp only [List.getD_cons_zero] at hag ⊢
          have hslice : sliceCol m cix (onset - pre) (onset + post)
              = sliceCol m0 cix (onset - pre) (onset + post) :=
            sliceCol_congr m m0 cix (onset - pre) (onset + post) hlen hag
          rw [hslice]
      | succ j =>
          simp only [List.getD_cons_succ] at hag hdisj ⊢
          have hj : j < rest.length := by
            simpa using hi
          have hframe : ∀ r, rest.getD j 0 - pre ≤ r → r < rest.getD j 0 + post →
              getEntry (writeCol cix m (onset - pre)
                ((sliceCol m cix (onset - pre) (onset + post)).map
                  (fun v => v - listMean ((sliceCol m cix (onset - pre)
                      (onset + post)).take pre)))) r cix
                = getEntry m r cix := by
            intro r h1 h2
            apply getEntry_writeCol_frame
            rcases hdisj 0 (Nat.succ_pos j) with hcase | hcase
            · rw [List.getD_cons_zero] at hcase
              refine Or.inr (Or.inr ?_)
              have hle : onset - pre ≤ onset + post := by omega
              have := add_length_sliceCol_le m cix (onset - pre) (onset + post) hle
              rw [List.length_map]
              omega
            · rw [List.getD_cons_zero] at hcase
              exact Or.inr (Or.inl (by omega))
          refine ih _ j hj ?_ ?_ ?_
          · rw [length_writeCol, hlen]
          · intro r h1 h2
            rw [hframe r h1 h2]
            exact hag r h1 h2
          · intro k hk
            have := hdisj (k + 1) (Nat.succ_lt_succ hk)
            rw [List.getD_cons_succ] at this
            exact this

/-! Helper lemmas about `find_closest` and the correction stages. -/

lemma find_closest_fold_mem (t x : ℚ) (rest : List ℚ) :
    rest.foldl (fun best y => if |y - t| < |best - t| then y else best) x ∈ x :: rest := by
  induction rest generalizing x with
  | nil => simp
  | cons z zs ih =>
      simp only [List.foldl_cons]
      by_cases h : |z - t| < |x - t|
      · rw [if_pos h]
        exact List.mem_cons_of_mem x (ih z)
      · rw [if_neg h]
        rcases List.mem_cons.mp (ih x) with h1 | h1
        · exact List.mem_cons.mpr (Or.inl h1)
        · exact List.mem_cons_of_mem x (List.mem_cons_of_mem z h1)

lemma find_closest_fold_le (t x : ℚ) (rest : List ℚ) :
    ∀ y ∈ x :: rest,
      |rest.foldl (fun best y => if |y - t| < |best - t| then y else best) x - t| ≤ |y - t| := by
  induction rest generalizing x with
  | nil =>
      intro y hy
      rcases List.mem_cons.mp hy with rfl | h1
      · simp
      · simp at h1
  | cons z zs ih =>
      intro y hy
      simp only [List.foldl_cons]
      by_cases h : |z - t| < |x - t|
      · rw [if_pos h]
        rcases List.mem_cons.mp hy with h1 | h1
        · rw [h1]
          exact le_trans (ih z z (List.mem_cons_self z zs)) (le_of_lt h)
        · exact ih z y h1
      · rw [if_neg h]
        rcases List.mem_cons.mp hy with h1 | h1
        · rw [h1]
          exact ih x x (List.mem_cons_self x zs)
        · rcases List.mem_cons.mp h1 with h2 | h2
          · rw [h2]
            exact le_trans (ih x x (List.mem_cons_self x zs)) (not_lt.mp h)
          · exact ih x y (List.mem_cons_of_mem x h2)

lemma find_closest_mem (t : ℚ) (xs : List ℚ) (hne : xs ≠ []) :
    find_closest t xs ∈ xs := by
  cases xs with
  | nil => exact absurd rfl hne
  | cons x rest => exact find_closest_fold_mem t x rest

lemma find_closest_le (t : ℚ) (xs : List ℚ) :
    ∀ y ∈ xs, |find_closest t xs - t| ≤ |y - t| := by
  cases xs with
  | nil => intro y hy; simp at hy
  | cons x rest => exact find_closest_fold_le t x rest

lemma ptp_ne_none_of_mem (rda : List ℚ) (span : ℚ) (h : ptp rda = some span) :
    rda ≠ [] := by
  intro hrda
  rw [hrda] at h
  exact Option.noConfusion h

lemma rda_correction_length (rda ts ts' : List ℚ)
    (h : rda_correction rda ts = Except.ok ts') : ts'.length = ts.length := by
  unfold rda_correction at h
  split at h
  · exact absurd h (by simp)
  · split at h
    · rw [Except.ok.injEq] at h
      rw [← h, List.length_map]
    · split at h
      · rw [Except.ok.injEq] at h
        rw [← h, List.length_map]
      · rw [Except.ok.injEq] at h
        rw [← h]

lemma tkeo_refinement_length (detect : XDFStream → ℚ → ℚ) (streams : Streams)
    (ts ts' : List ℚ) (h : tkeo_refinement detect streams ts = Except.ok ts') :
    ts'.length = ts.length := by
  unfold tkeo_refinement at h
  split at h
  · split at h
    · rw [Except.ok.injEq] at h
      rw [← h]
      exact List.length_map ts _
    · split at h
      · rw [Except.ok.injEq] at h
        rw [← h]
        exact List.length_map ts _
      · exact absurd h (by simp)
  · split at h
    · rw [Except.ok.injEq] at h
      rw [← h]
      exact List.length_map ts _
    · exact absurd h (by simp)

lemma length_build_trace_attrs (ev_name : String) (event_samples : List ℕ)
    (event_times : List ℚ) (tsl : List (Option ℚ)) (coords : List Coordinate)
    (didt mso : List (Option ℚ)) :
    (build_trace_attrs ev_name event_samples event_times tsl coords didt mso).length
      = event_samples.length := by
  simp [build_trace_attrs]

lemma id_build_trace_attrs (ev_name : String) (event_samples : List ℕ)
    (event_times : List ℚ) (tsl : List (Option ℚ)) (coords : List Coordinate)
    (didt mso : List (Option ℚ)) (i : ℕ) (hi : i < event_samples.length) :
    ((build_trace_attrs ev_name event_samples event_times tsl coords didt mso).getD i {}).id
      = i := by
  unfold build_trace_attrs
  rw [List.getD_eq_getElem?_getD, List.getElem?_map, List.getElem?_range hi]
  rfl

/-! Concrete recordings used by the claim theorems and witnesses. -/

/-- A four-sample single-channel EMG data stream of constant ones. -/
def emgStream : XDFStream :=
  { name := "EMG-data", channel_labels := ["EMG"],
    time_series := [[1], [1], [1], [1]], time_stamps := [0, 1, 2, 3],
    nominal_srate := 1000 }

/-- A marker stream carrying two `coil_0_didt` events. -/
def reizStream : XDFStream :=
  { name := "reiz_marker_sa", markers := [("coil_0_didt", 10), ("coil_0_didt", 20)] }

/-- A `localite_flow` stream with no payload. -/
def flowStream : XDFStream := { name := "localite_flow" }

/-- A `localite_marker` stream with events and tracking data. -/
def locStream : XDFStream :=
  { name := "localite_marker",
    markers := [("coil_0_didt", 10), ("coil_0_didt", 20)],
    loc_coords := [(10, (1, 2, 3))], loc_didt := [(10, 5)], loc_mso := [(10, 50)] }

/-- A recording with `localite_flow` present but `localite_marker` absent. -/
def flowOnlyStreams : Streams :=
  [("EMG-data", emgStream), ("reiz_marker_sa", reizStream), ("localite_flow", flowStream)]

/-- A recording with no localite stream at all. -/
def noLocStreams : Streams :=
  [("EMG-data", emgStream), ("reiz_marker_sa", reizStream)]

/-- A `BrainVision RDA2` raw stream reported by the wrong host. -/
def rda2WrongHost : XDFStream := { name := "BrainVision RDA2", hostname := "SEPHYS-DISPLAY" }

/-- A recording containing only the wrong-host `BrainVision RDA2`. -/
def rda2OnlyStreams : Streams := [("BrainVision RDA2", rda2WrongHost)]

/-- An auxiliary hardware marker stream from the control machine with no
`'S  2'` markers at all. -/
def rdaEmptyMarkers : XDFStream :=
  { name := "BrainVision RDA Markers", hostname := "SEPHYS-CTRL" }

/-- A recording whose selected auxiliary stream yields zero `'S  2'`
timestamps. -/
def emptyRdaStreams : Streams :=
  [("EMG-data", emgStream), ("localite_marker", locStream),
   ("BrainVision RDA Markers", rdaEmptyMarkers)]

/-- Both auxiliary hardware marker streams, both from `SEPHYS-CTRL`,
with distinguishable `'S  2'` timestamps. -/
def rdaM1 : XDFStream :=
  { name := "BrainVision RDA Markers", hostname := "SEPHYS-CTRL", markers := [("S  2", 1)] }

/-- Second auxiliary hardware marker stream, also from `SEPHYS-CTRL`. -/
def rdaM2 : XDFStream :=
  { name := "BrainVision RDA Markers2", hostname := "SEPHYS-CTRL", markers := [("S  2", 2)] }

/-- A recording with both duplicate auxiliary marker streams present. -/
def twoRdaStreams : Streams :=
  [("BrainVision RDA Markers", rdaM1), ("BrainVision RDA Markers2", rdaM2)]

/-- The recording holding only the constant-ones EMG stream. -/
def emgOnlyStreams : Streams := [("EMG-data", emgStream)]

/-- Two trials with overlapping windows (`pre = post = 1`, onsets 1 and 2). -/
def overlapAnno : Annotations :=
  { samplingrate := 1000, samples_pre_event := 1, samples_post_event := 1,
    channel_of_interest := "EMG", channel_labels := ["EMG"],
    traces := [{ id := 0, event_sample := 1 }, { id := 1, event_sample := 2 }] }

/-- A six-sample ramp stream. -/
def rampStream : XDFStream :=
  { name := "EMG-data", channel_labels := ["EMG"],
    time_series := [[1], [2], [3], [4], [5], [6]], time_stamps := [0, 1, 2, 3, 4, 5],
    nominal_srate := 1000 }

/-- The recording holding only the ramp stream. -/
def rampStreams : Streams := [("EMG-data", rampStream)]

/-- Two trials with pairwise disjoint windows (onsets 1 and 4). -/
def disjointAnno : Annotations :=
  { samplingrate := 1000, samples_pre_event := 1, samples_post_event := 1,
    channel_of_interest := "EMG", channel_labels := ["EMG"],
    traces := [{ id := 0, event_sample := 1 }, { id := 1, event_sample := 4 }] }

/-- The record produced by a successful run on `noLocStreams`. -/
def noLocAnno : Annotations :=
  match prepare_annotations (fun _ t => t) noLocStreams "EMG" 10 10
      "coil_0_didt" "reiz_marker_sa" with
  | Except.ok anno => anno
  | Except.error _ => {}

/-! Claim theorems. -/

/-- Claim C1 (code bug): with `localite_flow` present but
`localite_marker` absent, `prepare_annotations` enters the tracking
branch (line 95 tests either stream name) and the lookup
`streams["localite_marker"]` on line 96 raises `KeyError` at the
coordinate-resolution stage, instead of degrading to the missing-data
sentinels as the claim (and the spec's never-fail fallback) requires. -/
theorem prepare_annotations_flow_without_marker_raises :
    prepare_annotations (fun _ t => t) flowOnlyStreams "EMG" 10 10
      "coil_0_didt" "reiz_marker_sa" = Except.error "KeyError: localite_marker" := rfl

/-- Claim C2 (counterexample): with `BrainVision RDA` absent and
`BrainVision RDA2` present under hostname `SEPHYS-DISPLAY` — not the
expected control machine — the artifact-refinement step still applies
`correct_tkeo` with that stream (here a detector shifting by 1 changes
the timestamp 10 to 11), rather than disqualifying it and keeping the
timestamps of the preceding steps unchanged. -/
theorem tkeo_refinement_mismatched_rda2_used :
    tkeo_refinement (fun _ t => t + 1) rda2OnlyStreams [10] = Except.ok [11] ∧
      ([11] : List ℚ) ≠ [10] := by
  refine ⟨?_, ?_⟩
  · norm_num [tkeo_refinement, correct_tkeo, Streams.get?, rda2OnlyStreams, rda2WrongHost]
    split <;> rfl
  · decide

/-- Claim C2 (amended): in the artifact-refinement step only
`BrainVision RDA` is protected by the host-identifier check; whenever it
is absent or reports a different host, `BrainVision RDA2` is used
unconditionally — no hostname check — and the timestamps are refined
with it (and if `BrainVision RDA2` is also absent the lookup raises). -/
theorem tkeo_refinement_rda2_no_hostname_check
    (detect : XDFStream → ℚ → ℚ) (streams : Streams) (ts : List ℚ) (s2 : XDFStream)
    (h1 : ∀ s, streams.get? "BrainVision RDA" = some s → ¬ s.hostname = "SEPHYS-CTRL")
    (h2 : streams.get? "BrainVision RDA2" = some s2) :
    tkeo_refinement detect streams ts = Except.ok (correct_tkeo detect s2 ts) := by
  unfold tkeo_refinement
  split
  next s hA =>
    rw [if_neg (h1 s hA), h2]
  next hA =>
    rw [h2]

/-- Witness for the amended C2 theorem at a concrete recording. -/
theorem tkeo_refinement_rda2_no_hostname_check_witness :
    tkeo_refinement (fun _ t => t + 1) rda2OnlyStreams [10]
      = Except.ok (correct_tkeo (fun _ t => t + 1) rda2WrongHost [10]) :=
  tkeo_refinement_rda2_no_hostname_check _ _ _ _
    (fun s hs => by
      rw [show Streams.get? rda2OnlyStreams "BrainVision RDA" = none from rfl] at hs
      exact Option.noConfusion hs)
    rfl

/-- Claim C4 (counterexample): a selected auxiliary stream with zero
`'S  2'` matches makes `rda_stamps` the empty list — which is not
`None` — so the pipeline calls `np.ptp` on a zero-size array and raises
instead of completing with the primary timestamps as final. -/
theorem prepare_annotations_empty_rda_raises_concrete :
    prepare_annotations (fun _ t => t) emptyRdaStreams "EMG" 10 10
      = Except.error "ValueError: zero-size array to reduction operation" := rfl

/-- Claim C4 (amended): when the auxiliary-stream selection succeeds but
yields an empty `'S  2'` timestamp list, `prepare_annotations` raises at
the degenerate-density check (`np.ptp` of a zero-size array raises);
the correction pipeline completes with the primary timestamps as final
only when no auxiliary stream is selected at all. -/
theorem prepare_annotations_empty_rda_raises
    (detect : XDFStream → ℚ → ℚ) (streams : Streams) (channel : String)
    (pre_in_ms post_in_ms : ℚ) (event_name ename : String)
    (ds loc : XDFStream) (es : XDFStream)
    (h1 : pick_stream_with_channel channel streams = Except.ok ds)
    (h2 : streams.get? ename = some es)
    (h3 : streams.get? "localite_marker" = some loc)
    (h4 : select_rda_stamps streams = some []) :
    prepare_annotations detect streams channel pre_in_ms post_in_ms event_name ename
      = Except.error "ValueError: zero-size array to reduction operation" := by
  have hc : streams.containsName "localite_marker" = true := by
    unfold Streams.containsName
    rw [h3]
    rfl
  simp [prepare_annotations, rda_correction, ptp, h1, h2, h3, h4, hc]

/-- Witness for the amended C4 theorem at a concrete recording. -/
theorem prepare_annotations_empty_rda_raises_witness :
    prepare_annotations (fun _ t => t) emptyRdaStreams "EMG" 10 10
      "coil_0_didt" "localite_marker"
      = Except.error "ValueError: zero-size array to reduction operation" :=
  prepare_annotations_empty_rda_raises _ _ _ _ _ _ _ emgStream locStream locStream
    rfl rfl rfl rfl

/-- Claim C5 (confirmed): a non-empty auxiliary timestamp sequence whose
total range is below 30 seconds triggers the constant-offset branch:
every primary timestamp is replaced by exactly `t + 0.045`, element-wise
(the `map` preserves order and length). -/
theorem rda_correction_dense_shift (rda ts : List ℚ) (span : ℚ)
    (h : ptp rda = some span) (hlt : span < 30) :
    rda_correction rda ts = Except.ok (ts.map (fun t => t + 0.045)) := by
  simp only [rda_correction, h]
  rw [if_pos hlt]

/-- Witness for C5: the spec's scenario, auxiliary timestamps
`[10.0, 10.1, 10.2]` with range `0.2 < 30`. -/
theorem rda_correction_dense_shift_witness :
    rda_correction [10, 101/10, 102/10] [1, 2]
      = Except.ok (([1, 2] : List ℚ).map (fun t => t + 0.045)) :=
  rda_correction_dense_shift _ _ (1/5) (by norm_num [ptp, max_def, min_def]) (by norm_num)

/-- Claim C6 (confirmed): an auxiliary sequence with range at least 30
seconds and at least as many entries as the primary sequence makes the
nearest-match branch replace every primary timestamp by its closest
auxiliary timestamp (minimal absolute difference, ties to the earliest
index), so every corrected timestamp is a member of the auxiliary
sequence. -/
theorem rda_correction_nearest_membership (rda ts : List ℚ) (span : ℚ)
    (h : ptp rda = some span) (h30 : ¬ span < 30) (hlen : ts.length ≤ rda.length) :
    rda_correction rda ts = Except.ok (ts.map (fun t => find_closest t rda)) ∧
      ∀ t ∈ ts, find_closest t rda ∈ rda ∧
        ∀ y ∈ rda, |find_closest t rda - t| ≤ |y - t| := by
  refine ⟨?_, ?_⟩
  · simp only [rda_correction, h]
    rw [if_neg h30, if_pos hlen]
  · intro t _
    exact ⟨find_closest_mem t rda (ptp_ne_none_of_mem rda span h), find_closest_le t rda⟩

/-- Witness for C6 with auxiliary range `40 ≥ 30` and counts `5 ≥ 2`. -/
theorem rda_correction_nearest_membership_witness :
    rda_correction [0, 2, 3, 10, 40] [21/20, 59/20]
      = Except.ok (([21/20, 59/20] : List ℚ).map (fun t => find_closest t [0, 2, 3, 10, 40])) ∧
      ∀ t ∈ ([21/20, 59/20] : List ℚ), find_closest t [0, 2, 3, 10, 40] ∈ [0, 2, 3, 10, 40] ∧
        ∀ y ∈ ([0, 2, 3, 10, 40] : List ℚ), |find_closest t [0, 2, 3, 10, 40] - t| ≤ |y - t| :=
  rda_correction_nearest_membership _ _ 40 (by norm_num [ptp, max_def, min_def]) (by norm_num) (by decide)

/-- Claim C7 (confirmed): an auxiliary sequence with range at least 30
seconds but strictly fewer entries than the primary sequence leaves the
primary timestamps untouched at this stage (the mismatch is only
printed). -/
theorem rda_correction_count_mismatch (rda ts : List ℚ) (span : ℚ)
    (h : ptp rda = some span) (h30 : ¬ span < 30) (hlen : rda.length < ts.length) :
    rda_correction rda ts = Except.ok ts := by
  simp only [rda_correction, h]
  rw [if_neg h30, if_neg (by omega : ¬ ts.length ≤ rda.length)]

/-- Witness for C7: two auxiliary timestamps spanning 40 s against three
primary timestamps. -/
theorem rda_correction_count_mismatch_witness :
    rda_correction [0, 40] [1, 2, 3] = Except.ok [1, 2, 3] :=
  rda_correction_count_mismatch _ _ 40 (by norm_num [ptp, max_def, min_def]) (by norm_num) (by decide)

/-- Claim C10 (confirmed): when both `BrainVision RDA Markers` and
`BrainVision RDA Markers2` are present and both report hostname
`SEPHYS-CTRL`, the second lookup unconditionally overwrites the first:
the `'S  2'` timestamps used for correction come from
`BrainVision RDA Markers2`. -/
theorem select_rda_stamps_second_overwrites (streams : Streams) (s1 s2 : XDFStream)
    (h1 : streams.get? "BrainVision RDA Markers" = some s1)
    (hh1 : s1.hostname = "SEPHYS-CTRL")
    (h2 : streams.get? "BrainVision RDA Markers2" = some s2)
    (hh2 : s2.hostname = "SEPHYS-CTRL") :
    select_rda_stamps streams = some (yield_timestamps s2 "S  2") := by
  simp [select_rda_stamps, h1, h2, hh1, hh2]

/-- Witness for C10 with both duplicate streams present. -/
theorem select_rda_stamps_second_overwrites_witness :
    select_rda_stamps twoRdaStreams = some (yield_timestamps rdaM2 "S  2") :=
  select_rda_stamps_second_overwrites _ rdaM1 rdaM2 rfl rfl rfl rfl

/-- Claim C3 (counterexample): cutting two overlapping windows
(`pre = post = 1`, onsets 1 and 2) from the all-ones stream changes the
sample matrix: the in-place baseline subtraction writes back through the
NumPy view, leaving `[[0], [0], [1], [1]]` instead of the original
ones — and the second trace, `[0, 1]`, already read mutated data, so an
identical second call would not reproduce the first call's traces. -/
theorem cut_traces_mutates_matrix :
    cut_traces emgOnlyStreams overlapAnno
      = Except.ok ([[0, 0], [0, 1]], [[0], [0], [1], [1]]) ∧
      ([[0], [0], [1], [1]] : List (List ℚ)) ≠ emgStream.time_series := by
  refine ⟨?_, ?_⟩
  · norm_num [cut_traces, emgOnlyStreams, overlapAnno, emgStream, pick_stream_with_channel,
      cutRun, sliceCol, colOf, listMean, writeCol, setEntry, getEntry]
  · decide

/-- Claim C3 (amended): `cut_traces` is not read-only on the stream
data — each trial's baseline-corrected window is written back in
place — but a frame property holds: every entry outside the
channel-of-interest column, and every row of that column lying outside
all trial windows, still has its original value in the matrix state
after the call. -/
theorem cut_traces_frame
    (streams : Streams) (anno : Annotations) (ds : XDFStream) (cix : ℕ)
    (tr mfin : List (List ℚ)) (r c : ℕ)
    (hds : pick_stream_with_channel anno.channel_of_interest streams = Except.ok ds)
    (hcix : ds.channel_labels.findIdx? (fun l => l == anno.channel_of_interest) = some cix)
    (hres : cut_traces streams anno = Except.ok (tr, mfin))
    (h : c ≠ cix ∨ ∀ a ∈ anno.traces,
        r < a.event_sample - anno.samples_pre_event ∨
        a.event_sample + anno.samples_post_event ≤ r) :
    getEntry mfin r c = getEntry ds.time_series r c := by
  unfold cut_traces at hres
  simp only [hds, hcix, Except.ok.injEq, Prod.mk.injEq] at hres
  obtain ⟨-, hm⟩ := hres
  rw [← hm]
  apply cutRun_frame
  rcases h with h | h
  · exact Or.inl h
  · refine Or.inr ?_
    intro o ho
    obtain ⟨a, ha, hao⟩ := List.mem_map.mp ho
    rw [← hao]
    exact h a ha

/-- Witness for the amended C3 theorem: row 2 lies outside both windows
of the disjoint two-trial recording and keeps its original value. -/
theorem cut_traces_frame_witness :
    getEntry [[0], [1], [3], [0], [1], [6]] 2 0 = getEntry rampStream.time_series 2 0 :=
  cut_traces_frame rampStreams disjointAnno rampStream 0 [[0, 1], [0, 1]]
    [[0], [1], [3], [0], [1], [6]] 2 0 rfl rfl
    (by norm_num [cut_traces, rampStreams, disjointAnno, rampStream, pick_stream_with_channel,
      cutRun, sliceCol, colOf, listMean, writeCol, setEntry, getEntry])
    (Or.inr (by decide))

/-- Claim C9 (counterexample): with the two overlapping windows of
`overlapAnno`, the second trial's last trace element is `1`, while the
claim's formula — raw sample at row `event_sample − pre + 1 = 2` minus
the mean of the raw pre-window — gives `1 − 1 = 0`: the second window
was read after the first trial's in-place subtraction. -/
theorem cut_traces_overlap_second_trial_not_raw :
    cut_traces emgOnlyStreams overlapAnno
      = Except.ok ([[0, 0], [0, 1]], [[0], [0], [1], [1]]) ∧
      ¬ ((([[0, 0], [0, 1]] : List (List ℚ)).getD 1 []).getD 1 0
          = getEntry emgStream.time_series (2 - 1 + 1) 0
            - listMean (sliceCol emgStream.time_series 0 (2 - 1) 2)) := by
  refine ⟨?_, ?_⟩
  · norm_num [cut_traces, emgOnlyStreams, overlapAnno, emgStream, pick_stream_with_channel,
      cutRun, sliceCol, colOf, listMean, writeCol, setEntry, getEntry]
  · norm_num [getEntry, sliceCol, colOf, listMean, emgStream]

/-- Claim C9 (amended): the claimed formula — trace length `pre + post`
and `j`-th element equal to the raw sample at row
`event_sample − pre + j` of the channel column minus the mean of the
`pre` raw samples preceding the event sample — holds for every in-bounds
trial whose window is disjoint from all *earlier* trials' windows, in
particular always for the first trial (with `1 ≤ pre`, so the baseline
window is non-empty); for a trial whose window overlaps an earlier
trial's window the values read have already been baseline-corrected in
place and the formula fails. -/
theorem cut_traces_disjoint_windows_spec
    (streams : Streams) (anno : Annotations) (ds : XDFStream) (cix : ℕ)
    (tr mfin : List (List ℚ)) (i : ℕ)
    (hds : pick_stream_with_channel anno.channel_of_interest streams = Except.ok ds)
    (hcix : ds.channel_labels.findIdx? (fun l => l == anno.channel_of_interest) = some cix)
    (hres : cut_traces streams anno = Except.ok (tr, mfin))
    (hdisj : ∀ k, k < i →
        (anno.traces.getD k {}).event_sample + anno.samples_post_event
            ≤ (anno.traces.getD i {}).event_sample - anno.samples_pre_event ∨
        (anno.traces.getD i {}).event_sample + anno.samples_post_event
            ≤ (anno.traces.getD k {}).event_sample - anno.samples_pre_event)
    (hi : i < anno.traces.length)
    (hpre : 1 ≤ anno.samples_pre_event)
    (hfit : anno.samples_pre_event ≤ (anno.traces.getD i {}).event_sample ∧
        (anno.traces.getD i {}).event_sample + anno.samples_post_event
          ≤ ds.time_series.length) :
    (tr.getD i []).length = anno.samples_pre_event + anno.samples_post_event ∧
    ∀ j < anno.samples_pre_event + anno.samples_post_event,
      (tr.getD i []).getD j 0 =
        getEntry ds.time_series
            ((anno.traces.getD i {}).event_sample - anno.samples_pre_event + j) cix
          - listMean (sliceCol ds.time_series cix
              ((anno.traces.getD i {}).event_sample - anno.samples_pre_event)
              ((anno.traces.getD i {}).event_sample)) := by
  unfold cut_traces at hres
  simp only [hds, hcix, Except.ok.injEq, Prod.mk.injEq] at hres
  obtain ⟨htr, -⟩ := hres
  have honset : ∀ k, k < anno.traces.length →
      (anno.traces.map (fun a => a.event_sample)).getD k 0
        = (anno.traces.getD k {}).event_sample := by
    intro k hk
    rw [List.getD_eq_getElem?_getD, List.getElem?_map, List.getElem?_eq_getElem hk,
        List.getD_eq_getElem?_getD, List.getElem?_eq_getElem hk]
    rfl
  have hlenmap : i < (anno.traces.map (fun a => a.event_sample)).length := by
    rw [List.length_map]
    exact hi
  have htri := cutRun_trace_at cix anno.samples_pre_event anno.samples_post_event
      ds.time_series (anno.traces.map (fun a => a.event_sample)) ds.time_series i
      hlenmap rfl (fun _ _ _ => rfl)
      (by
        intro k hk
        rw [honset k (Nat.lt_trans hk hi), honset i hi]
        exact hdisj k hk)
  rw [honset i hi, htr] at htri
  have hminhi : min ((anno.traces.getD i {}).event_sample + anno.samples_post_event)
      ds.time_series.length
      = (anno.traces.getD i {}).event_sample + anno.samples_post_event := by
    omega
  refine ⟨?_, ?_⟩
  · rw [htri, List.length_map, length_sliceCol, hminhi]
    omega
  · intro j hj
    have hrow : (anno.traces.getD i {}).event_sample - anno.samples_pre_event + j
        < (anno.traces.getD i {}).event_sample + anno.samples_post_event := by
      omega
    have hrowlen : (anno.traces.getD i {}).event_sample - anno.samples_pre_event + j
        < ds.time_series.length := by
      omega
    rw [htri, List.getD_eq_getElem?_getD, List.getElem?_map,
        getElem?_sliceCol _ _ _ _ _ hrow, getElem?_colOf_of_lt _ _ _ hrowlen]
    have htake : (sliceCol ds.time_series cix
        ((anno.traces.getD i {}).event_sample - anno.samples_pre_event)
        ((anno.traces.getD i {}).event_sample + anno.samples_post_event)).take
          anno.samples_pre_event
        = sliceCol ds.time_series cix
            ((anno.traces.getD i {}).event_sample - anno.samples_pre_event)
            ((anno.traces.getD i {}).event_sample) := by
      rw [take_sliceCol]
      have harg : (anno.traces.getD i {}).event_sample - anno.samples_pre_event
          + anno.samples_pre_event = (anno.traces.getD i {}).event_sample := by
        omega
      rw [harg, min_eq_left (by omega)]
    rw [htake]
    rfl

/-- Witness for the amended C9 theorem: the second trial of the disjoint
two-trial recording on the ramp stream. -/
theorem cut_traces_disjoint_windows_spec_witness :
    (([[0, 1], [0, 1]] : List (List ℚ)).getD 1 []).length
        = disjointAnno.samples_pre_event + disjointAnno.samples_post_event ∧
    ∀ j < disjointAnno.samples_pre_event + disjointAnno.samples_post_event,
      (([[0, 1], [0, 1]] : List (List ℚ)).getD 1 []).getD j 0 =
        getEntry rampStream.time_series
            ((disjointAnno.traces.getD 1 {}).event_sample
              - disjointAnno.samples_pre_event + j) 0
          - listMean (sliceCol rampStream.time_series 0
              ((disjointAnno.traces.getD 1 {}).event_sample
                - disjointAnno.samples_pre_event)
              ((disjointAnno.traces.getD 1 {}).event_sample)) :=
  cut_traces_disjoint_windows_spec rampStreams disjointAnno rampStream 0
    [[0, 1], [0, 1]] [[0], [1], [3], [0], [1], [6]] 1 rfl rfl
    (by norm_num [cut_traces, rampStreams, disjointAnno, rampStream, pick_stream_with_channel,
      cutRun, sliceCol, colOf, listMean, writeCol, setEntry, getEntry])
    (by decide) (by decide) (by decide) ⟨by decide, by decide⟩

/-- Claim C8 (confirmed): every branch of the cross-stream correction
preserves the event count — the constant shift and the nearest-match
snap are `map`s, the skip and the no-auxiliary-data cases are the
identity, and the artifact refinement is one refined value per
timestamp — and the assembled record carries exactly one per-trial
record per final corrected timestamp, with 0-based contiguous ids. -/
theorem prepare_annotations_count_invariant
    (detect : XDFStream → ℚ → ℚ) (streams : Streams) (channel : String)
    (pre_in_ms post_in_ms : ℚ) (event_name ename : String)
    (es : XDFStream) (anno : Annotations)
    (hes : streams.get? ename = some es)
    (h : prepare_annotations detect streams channel pre_in_ms post_in_ms event_name ename
        = Except.ok anno) :
    anno.traces.length = (yield_timestamps es event_name).length ∧
    ∀ i, i < anno.traces.length → (anno.traces.getD i {}).id = i := by
  unfold prepare_annotations at h
  split at h
  · exact absurd h (by simp)
  next ds hds =>
  split at h
  next hnone =>
    rw [hes] at hnone
    exact Option.noConfusion hnone
  next es2 hsome =>
  rw [hes] at hsome
  injection hsome with hes2
  subst hes2
  dsimp only at h
  split at h
  · exact absurd h (by simp)
  next coords didt mso hcdm =>
  split at h
  · exact absurd h (by simp)
  next tsfin hcorr =>
  rw [Except.ok.injEq] at h
  subst h
  have hlen : tsfin.length = (yield_timestamps es event_name).length := by
    split at hcorr
    · rw [Except.ok.injEq] at hcorr
      rw [hcorr]
    next rda hsel =>
      split at hcorr
      · exact absurd hcorr (by simp)
      next ts1 hrda =>
        rw [tkeo_refinement_length detect streams ts1 tsfin hcorr]
        exact rda_correction_length rda (yield_timestamps es event_name) ts1 hrda
  have hsamples : (find_closest_samples ds tsfin).length
      = (yield_timestamps es event_name).length := by
    rw [find_closest_samples, List.length_map, hlen]
  refine ⟨?_, ?_⟩
  · dsimp only
    rw [length_build_trace_attrs, hsamples]
  · intro i hi
    dsimp only at hi ⊢
    rw [length_build_trace_attrs] at hi
    exact id_build_trace_attrs _ _ _ _ _ _ _ i hi

/-- Witness for C8: a recording with no localite and no auxiliary
streams runs the identity branch end to end; the record has one trace
per detected event with ids 0 and 1. -/
theorem prepare_annotations_count_invariant_witness :
    noLocAnno.traces.length = (yield_timestamps reizStream "coil_0_didt").length ∧
    ∀ i, i < noLocAnno.traces.length → (noLocAnno.traces.getD i {}).id = i :=
  prepare_annotations_count_invariant (fun _ t => t) noLocStreams "EMG" 10 10
    "coil_0_didt" "reiz_marker_sa" reizStream noLocAnno rfl rfl

end Offspect
